import Mathlib

/-!
Verification of the category/skill data-merge and retry-suggestion workflow of
the 6Ws skill-wizard (source: src/src/App.js).  The React component keeps two
pieces of application state that the claims are about: `skillsByCategory`
(broad category -> sub-category -> ordered list of skill strings, a JS object,
modelled as an insertion-ordered association list) and
`selectedBroadCategories` (a JS array of strings).  Network calls to the
suggestion endpoint are modelled by an oracle `Nat -> Option _` giving, for
each attempt index, either the successfully extracted payload of that attempt
or `none` when the attempt throws (network error, non-2xx status, missing
candidates/parts, or JSON-parse failure).
-/

/-- Skill sequences: JS arrays of strings, insertion order relevant. -/
abbrev SkillList := List String

/-- Sub-category map: JS object from sub-category name to skill list,
modelled as an insertion-ordered association list. -/
abbrev SubCategoryMap := List (String × SkillList)

/-- Skill map: JS object from broad-category key to sub-category map. -/
abbrev SkillMap := List (String × SubCategoryMap)

/-- JS object read `m[k]`: the value at the first matching key, if any. -/
def getKey {α : Type} (m : List (String × α)) (k : String) : Option α :=
  match m.find? (fun p => p.1 == k) with
  | some p => some p.2
  | none => none

/-- JS object write `{...m, [k]: v}`: replace the value in place when the key
exists (keeping its position), otherwise append the new binding at the end. -/
def setKey {α : Type} (m : List (String × α)) (k : String) (v : α) : List (String × α) :=
  if m.any (fun p => p.1 == k) then
    m.map (fun p => if p.1 == k then (k, v) else p)
  else
    m ++ [(k, v)]

/-- JS `delete m[k]`: remove the binding for `k`. -/
def delKey {α : Type} (m : List (String × α)) (k : String) : List (String × α) :=
  m.filter (fun p => p.1 != k)

/-- Optional-chained read `m[bc]?.[sc]`. -/
def getKey2 (m : SkillMap) (bc sc : String) : Option SkillList :=
  match getKey m bc with
  | some sub => getKey sub sc
  | none => none

/-- Number of stored occurrences of skill `sk` under `(bc, sc)`. -/
def countSkill (m : SkillMap) (bc sc sk : String) : Nat :=
  ((getKey2 m bc sc).getD []).count sk

/-- The fixed list of standard broad categories (App.js lines 30-38). -/
def broadCategories : List String :=
  [("Creative & Design"), ("Tech & Digital"), ("Business & Professional"),
   ("Services & Personal Care"), ("Manual & Trades"), ("Education & Health"),
   ("Food & Hospitality")]

/-- Application state touched by the claims: the skill store and the list of
selected broad categories. -/
structure AppState where
  skills : SkillMap
  selected : List String
deriving DecidableEq

/-! ## The retry loop

All three suggestion operations run the same loop (App.js lines 214-251,
267-304 and 395-465): `attempts = 0; while (attempts < 5) { try { attempt;
break } catch { attempts++; if (attempts < 5) wait 1000 * 2^(attempts-1) } }`.
`retryGo` mirrors it with `remaining = maxAttempts - attempts` as the
structural fuel; `oracle i` is the outcome of the attempt made when the
counter equals `i`. -/

/-- Maximum number of attempts (`maxAttempts` in App.js). -/
def maxAttempts : Nat := 5

/-- Base backoff delay in milliseconds (`baseDelay` in App.js). -/
def baseDelay : Nat := 1000

/-- Outcome of a retry loop: the successful payload (if any), the backoff
waits performed, in order, and how many attempts were made. -/
structure RunResult (α : Type) where
  result : Option α
  delays : List Nat
  attemptsMade : Nat
deriving DecidableEq

/-- The retry loop body; `remaining` is `maxAttempts - attempts`. -/
def retryGo {α : Type} (oracle : Nat → Option α) : Nat → Nat → RunResult α
  | attempts, 0 => { result := none, delays := [], attemptsMade := attempts }
  | attempts, remaining + 1 =>
    match oracle attempts with
    | some v => { result := some v, delays := [], attemptsMade := attempts + 1 }
    | none =>
      let a := attempts + 1
      if a < maxAttempts then
        let r := retryGo oracle a remaining
        { result := r.result, delays := baseDelay * 2 ^ (a - 1) :: r.delays,
          attemptsMade := r.attemptsMade }
      else
        { result := none, delays := [], attemptsMade := a }

/-- Run the retry loop from a zero attempt counter. -/
def runRetry {α : Type} (oracle : Nat → Option α) : RunResult α :=
  retryGo oracle 0 maxAttempts

/-- Strip leading and trailing whitespace from a character list. -/
def trimChars (l : List Char) : List Char :=
  ((l.dropWhile Char.isWhitespace).reverse.dropWhile Char.isWhitespace).reverse

/-- JS `String.prototype.trim`. -/
def jsTrim (s : String) : String :=
  String.mk (trimChars s.data)

/-- JS `text.split(',')` on the underlying character list. -/
def splitOnComma : List Char → List (List Char)
  | [] => [[]]
  | c :: t =>
    if c == ',' then [] :: splitOnComma t
    else
      match splitOnComma t with
      | [] => [[c]]
      | h :: rest => (c :: h) :: rest

/-- JS `s.startsWith(pre)`. -/
def jsStartsWith (s pre : String) : Bool :=
  pre.data.isPrefixOf s.data

/-- Parse a comma-separated suggestion text: split on commas, trim, drop
empties (App.js lines 237 and 290). -/
def parseCSV (text : String) : List String :=
  ((splitOnComma text.data).map (fun l => jsTrim (String.mk l))).filter
    (fun s => s.length > 0)

/-- Sub-category suggestion fetch (App.js lines 207-253).  Returns the final
value of the `suggestedSubCategories` state together with the backoff waits.
`prior` is the value that state held before the run; on success at some
attempt the state is set to that attempt's parsed output, and when every
attempt fails the state is never written, keeping `prior`. -/
def fetchSubCategories (category : String) (oracle : Nat → Option String)
    (prior : List String) : List String × List Nat :=
  if category = "" ∨ category = "Other" then ([], [])
  else
    let r := runRetry (fun k => (oracle k).map parseCSV)
    (r.result.getD prior, r.delays)

/-- Specific-skill suggestion fetch (App.js lines 260-306), same shape as
`fetchSubCategories` but guarded on both category levels. -/
def fetchSpecificSkills (broadCat subCat : String) (oracle : Nat → Option String)
    (prior : List String) : List String × List Nat :=
  if broadCat = "" ∨ subCat = "" ∨ broadCat = "Other" then ([], [])
  else
    let r := runRetry (fun k => (oracle k).map parseCSV)
    (r.result.getD prior, r.delays)

/-- The save-time cleaning of the skill map (App.js lines 168-180): drop
sub-categories whose skill list is empty, then drop broad categories whose
cleaned sub-category map is empty. -/
def cleanedSkills (m : SkillMap) : SkillMap :=
  (m.map (fun p => (p.1, p.2.filter (fun q => !q.2.isEmpty)))).filter
    (fun p => !p.2.isEmpty)

/-! ## Adding a skill (App.js lines 370-498)

The handler reads the typed skill input, the selected suggested skill, the
active broad/sub category drop-downs, the custom broad-category text field and
the `loadingAutoCategorization` flag; these are grouped in `AddInput`.  The
auto-categorization round trip is the retry loop over an oracle yielding, per
attempt, the JSON object parsed from the response (`ParsedAuto`; the response
schema declares both fields as strings, and an absent/empty field is the empty
string, which is falsy in JS exactly like `undefined`). -/

/-- Inputs read by the add-skill handler. -/
structure AddInput where
  selectedSuggestedSkill : String
  newSkillInput : String
  activeBroadCategory : String
  activeSubCategory : String
  newCustomBroadCategory : String
  loadingAutoCategorization : Bool
deriving DecidableEq

/-- Parsed auto-categorization response (`parsedJson` at App.js line 430). -/
structure ParsedAuto where
  broadCategory : String
  subCategory : String
deriving DecidableEq

/-- The skill text to add (App.js lines 371-374): the typed input when it
trims non-empty, otherwise the trimmed suggested-skill selection. -/
def skillToAdd (inp : AddInput) : String :=
  if jsTrim inp.newSkillInput ≠ "" then jsTrim inp.newSkillInput
  else jsTrim inp.selectedSuggestedSkill

/-- Target after the custom-"Other" rewrite (App.js lines 378-389): when the
active broad category is the "Other" sentinel and a custom name was typed, the
target becomes the `Other_Custom_`-prefixed key with sub-category "General";
otherwise the active selections stand. -/
def phase2Target (inp : AddInput) : String × String :=
  if inp.activeBroadCategory = "Other" ∧ jsTrim inp.newCustomBroadCategory ≠ "" then
    (("Other_Custom_") ++ jsTrim inp.newCustomBroadCategory, ("General"))
  else (inp.activeBroadCategory, inp.activeSubCategory)

/-- Guard of the auto-categorization block (App.js line 393): the target is
still missing or the bare "Other" sentinel, the typed input is non-empty, and
no auto-categorization is already in flight. -/
def autoGuard (inp : AddInput) : Bool :=
  ((phase2Target inp).1 == "" || (phase2Target inp).2 == ""
      || (phase2Target inp).1 == "Other")
    && !(jsTrim inp.newSkillInput == "") && !inp.loadingAutoCategorization

/-- Target after the auto-categorization block (App.js lines 393-467).  On a
successful attempt, an "Other" broad category is remapped to the
`Other_Auto_Uncategorized` key with the suggested sub-category (or "General"
when that is falsy); when every attempt fails the target defaults to
`Other_Auto_Uncategorized` / "General" (lines 457-459). -/
def phase3Target (inp : AddInput) (oracle : Nat → Option ParsedAuto) : String × String :=
  if autoGuard inp then
    match (runRetry oracle).result with
    | some parsed =>
      if parsed.broadCategory = "Other" then
        (("Other_Auto_Uncategorized"),
         if parsed.subCategory = "" then ("General") else parsed.subCategory)
      else (parsed.broadCategory, parsed.subCategory)
    | none => (("Other_Auto_Uncategorized"), ("General"))
  else phase2Target inp

/-- The resolved target of the add, if any (App.js lines 470-478): `none`
when the skill text is empty (line 376) or the broad category is still falsy
after resolution (line 470); a falsy sub-category defaults to "General". -/
def addTarget (inp : AddInput) (oracle : Nat → Option ParsedAuto) : Option (String × String) :=
  if skillToAdd inp = "" then none
  else
    let t := phase3Target inp oracle
    if t.1 = "" then none
    else some (t.1, if t.2 = "" then ("General") else t.2)

/-- Push `x` onto the selection unless already present (the
`includes`-guarded `setSelectedBroadCategories` calls). -/
def addIfMissing (l : List String) (x : String) : List String :=
  if x ∈ l then l else l ++ [x]

/-- The selected-broad-categories list after the handler: the custom-"Other"
rewrite marks the custom key selected (line 386), a successful
auto-categorization marks the returned category (or "Other") selected (lines
438-443), and exhaustion marks "Other" selected (line 460). -/
def addSelected (selected : List String) (inp : AddInput)
    (oracle : Nat → Option ParsedAuto) : List String :=
  if skillToAdd inp = "" then selected
  else
    let sel0 :=
      if inp.activeBroadCategory = "Other" ∧ jsTrim inp.newCustomBroadCategory ≠ "" then
        addIfMissing selected (("Other_Custom_") ++ jsTrim inp.newCustomBroadCategory)
      else selected
    if autoGuard inp then
      match (runRetry oracle).result with
      | some parsed =>
        if parsed.broadCategory = "Other" then addIfMissing sel0 ("Other")
        else addIfMissing sel0 parsed.broadCategory
      | none => addIfMissing sel0 ("Other")
    else sel0

/-- The `(broadCategory, subCategory, skill)` triple the add resolves to;
independent of the current selection. -/
def resolveTriple (inp : AddInput) (oracle : Nat → Option ParsedAuto) :
    Option (String × String × String) :=
  (addTarget inp oracle).map (fun t => (t.1, t.2, skillToAdd inp))

/-- The add-skill handler (App.js lines 370-498): resolve the target; reject
with no skill-map mutation when the target is unresolved (line 470) or the
skill already sits in the addressed sequence (lines 481-486); otherwise append
the skill, creating intermediate containers (lines 488-494).  Selection
updates made along the way are kept in every branch. -/
def handleAddSkill (st : AppState) (inp : AddInput)
    (oracle : Nat → Option ParsedAuto) : AppState :=
  match addTarget inp oracle with
  | none => { st with selected := addSelected st.selected inp oracle }
  | some (bc, sc) =>
    if skillToAdd inp ∈ ((getKey2 st.skills bc sc).getD []) then
      { st with selected := addSelected st.selected inp oracle }
    else
      { skills := setKey st.skills bc
          (setKey ((getKey st.skills bc).getD []) sc
            (((getKey2 st.skills bc sc).getD []) ++ [skillToAdd inp])),
        selected := addSelected st.selected inp oracle }

/-! ## Removing a skill (App.js lines 501-527) -/

/-- The remove-skill handler.  `none` models the TypeError the JS code throws
when the addressed sub-category does not exist (`newBroadCatState[subCat]` is
`undefined`); the UI only invokes the handler on rendered, existing entries.
Otherwise: filter the skill out of the addressed sequence, drop the
sub-category if it became empty, drop the broad category if its map became
empty, and in that case update the selection: a `Other_Custom_`/`Other_Auto_`
key is removed together with the "Other" marker, a standard category is
removed, anything else leaves the selection alone. -/
def handleRemoveSkill (st : AppState) (broadCat subCat skillToRemove : String) :
    Option AppState :=
  let spread := (getKey st.skills broadCat).getD []
  match getKey spread subCat with
  | none => none
  | some skills =>
    let filtered := skills.filter (fun s => s != skillToRemove)
    let newBroadCatState :=
      if filtered = [] then delKey spread subCat else setKey spread subCat filtered
    if newBroadCatState = [] then
      some { skills := delKey st.skills broadCat,
             selected :=
               if jsStartsWith broadCat ("Other_Custom_")
                   || jsStartsWith broadCat ("Other_Auto_") then
                 st.selected.filter (fun c => c != broadCat && c != ("Other"))
               else if broadCat ∈ broadCategories then
                 st.selected.filter (fun c => c != broadCat)
               else st.selected }
    else some { st with skills := setKey st.skills broadCat newBroadCatState }

/-! ## Unchecking a broad category (App.js lines 314-351, unchecked case) -/

/-- JS `hay.includes(needle)` on the underlying character lists. -/
def charsContain (needle : List Char) : List Char → Bool
  | [] => needle.isPrefixOf []
  | c :: t => needle.isPrefixOf (c :: t) || charsContain needle t

/-- JS `String.prototype.includes`: substring containment. -/
def jsIncludes (s sub : String) : Bool :=
  charsContain sub.data s.data

/-- The cascade-delete test applied to each remaining key when `value` is
unchecked (App.js lines 330-337): a `Other_Custom_` or `Other_Auto_` key that
contains `"__" + value` as a substring. -/
def cascadeMatch (value k : String) : Bool :=
  (jsStartsWith k ("Other_Custom_") && jsIncludes k (("__") ++ value))
    || (jsStartsWith k ("Other_Auto_") && jsIncludes k (("__") ++ value))

/-- Unchecking broad category `value`: drop it from the selection when it is a
standard category or "Other" (lines 317-321), delete its skills entry and
every namespaced key matching the cascade test (lines 326-339). -/
def handleBroadCategoryUncheck (st : AppState) (value : String) : AppState :=
  { skills := (delKey st.skills value).filter (fun p => !cascadeMatch value p.1),
    selected :=
      if value ∈ broadCategories ∨ value = "Other" then
        st.selected.filter (fun c => c != value)
      else st.selected }

/-! ## Concrete fixtures used by witnesses and counterexamples -/

/-- An oracle whose every attempt fails. -/
def failOracleAuto : Nat → Option ParsedAuto := fun _ => none

/-- A text oracle whose every attempt fails. -/
def failOracleText : Nat → Option String := fun _ => none

/-- An oracle failing twice, then succeeding on the third attempt. -/
def oracleThird : Nat → Option Nat := fun k => if k = 2 then some 7 else none

/-- Add-skill inputs: a suggested skill picked, nothing typed. -/
def inpSuggested : AddInput :=
  { selectedSuggestedSkill := ("React"), newSkillInput := "",
    activeBroadCategory := ("Tech & Digital"),
    activeSubCategory := ("Web Development"),
    newCustomBroadCategory := "", loadingAutoCategorization := false }

/-- Add-skill inputs: a suggested skill picked, no active broad category. -/
def inpSuggestedNoCat : AddInput :=
  { selectedSuggestedSkill := ("React"), newSkillInput := "",
    activeBroadCategory := "", activeSubCategory := "",
    newCustomBroadCategory := "", loadingAutoCategorization := false }

/-- Add-skill inputs: a typed skill with no category resolved. -/
def inpTyped : AddInput :=
  { selectedSuggestedSkill := "", newSkillInput := ("Juggling"),
    activeBroadCategory := "", activeSubCategory := "",
    newCustomBroadCategory := "", loadingAutoCategorization := false }

/-- Add-skill inputs: the "Other" sentinel with a custom category name. -/
def inpCustom : AddInput :=
  { selectedSuggestedSkill := "", newSkillInput := ("Brand Strategy"),
    activeBroadCategory := ("Other"), activeSubCategory := ("Music Production"),
    newCustomBroadCategory := ("Specialized Consulting"),
    loadingAutoCategorization := false }

/-- The empty application state. -/
def stEmpty : AppState := { skills := [], selected := [] }

/-- Store holding a duplicated skill in one sequence. -/
def stDupSeq : AppState :=
  { skills := [(("Tech & Digital"), [(("Web"), [("A"), ("A"), ("B")])])],
    selected := [] }

/-- Store holding two skills in one sequence. -/
def stWeb : AppState :=
  { skills := [(("Tech & Digital"), [(("Web"), [("A"), ("B")])])],
    selected := [("Tech & Digital")] }

/-- Store holding two custom namespaced categories with content. -/
def stTwoCustom : AppState :=
  { skills := [(("Other_Custom_A"), [(("General"), [("x")])]),
               (("Other_Custom_B"), [(("General"), [("y")])])],
    selected := [("Other"), ("Other_Custom_A"), ("Other_Custom_B")] }

/-- Store holding one custom namespaced category. -/
def stOneCustom : AppState :=
  { skills := [(("Other_Custom_A"), [(("General"), [("x")])])],
    selected := [("Other"), ("Other_Custom_A")] }

/-- Store of the spec's cascade-delete scenario: skills both under
"Creative & Design" and under a custom key qualified by it. -/
def stScenario8 : AppState :=
  { skills := [(("Creative & Design"), [(("Music Production"), [("Songwriting")])]),
               (("Other_Custom_Specialized Consulting__Creative & Design"),
                [(("General"), [("Brand Strategy")])])],
    selected := [("Creative & Design"), ("Other")] }

/-- A skill map holding empty containers alongside a real entry. -/
def mWithEmpties : SkillMap :=
  [(("A"), [(("B"), [("x")]), (("C"), [])]), (("D"), [])]

/-! ## Helper lemmas about the JS-object operations -/

theorem getKey_setKey_self {α : Type} (m : List (String × α)) (k : String) (v : α) :
    getKey (setKey m k v) k = some v := by
  unfold setKey
  split
  case isTrue h =>
    induction m with
    | nil => simp at h
    | cons a t ih =>
      by_cases ha : a.1 = k
      · simp [getKey, List.find?, ha]
      · simp only [List.any_cons, Bool.or_eq_true, beq_iff_eq, ha, false_or] at h
        simp only [List.map_cons, if_neg (by simpa using ha)]
        simpa [getKey, List.find?_cons, ha] using ih h
  case isFalse h =>
    induction m with
    | nil => simp [getKey, List.find?]
    | cons a t ih =>
      simp only [List.any_cons, Bool.or_eq_true, beq_iff_eq, not_or] at h
      simp only [List.cons_append]
      simpa [getKey, List.find?_cons, h.1] using ih (by simpa using h.2)

theorem getKey_delKey_self {α : Type} (m : List (String × α)) (k : String) :
    getKey (delKey m k) k = none := by
  unfold getKey
  rw [List.find?_eq_none.mpr]
  intro p hp
  rcases List.mem_filter.mp hp with ⟨-, hne⟩
  simpa using hne

theorem setKey_ne_nil {α : Type} (m : List (String × α)) (k : String) (v : α) :
    setKey m k v ≠ [] := by
  unfold setKey
  split
  case isTrue h =>
    intro hnil
    rcases List.map_eq_nil_iff.mp hnil with rfl
    simp at h
  case isFalse h => simp

theorem getKey_eq_none_iff {α : Type} (m : List (String × α)) (k : String) :
    getKey m k = none ↔ ∀ p ∈ m, p.1 ≠ k := by
  unfold getKey
  constructor
  · intro h p hp
    cases hfind : m.find? (fun p => p.1 == k) with
    | some q => rw [hfind] at h; simp at h
    | none => exact by simpa using List.find?_eq_none.mp hfind p hp
  · intro h
    rw [List.find?_eq_none.mpr (fun p hp => by simpa using h p hp)]

theorem mem_addIfMissing_self (l : List String) (x : String) :
    x ∈ addIfMissing l x := by
  unfold addIfMissing
  split
  case isTrue h => exact h
  case isFalse h => simp

/-! ## Helper lemmas about the retry loop -/

theorem retryGo_attemptsMade_le {α : Type} (oracle : Nat → Option α) :
    ∀ remaining attempts,
      (retryGo oracle attempts remaining).attemptsMade ≤ attempts + remaining := by
  intro remaining
  induction remaining with
  | zero => intro attempts; simp [retryGo]
  | succ n ih =>
    intro attempts
    by_cases hlt : attempts + 1 < maxAttempts
    · cases horacle : oracle attempts with
      | some v => simp [retryGo, horacle]
      | none =>
        have := ih (attempts + 1)
        simp only [retryGo, horacle, if_pos hlt]
        omega
    · cases horacle : oracle attempts with
      | some v => simp [retryGo, horacle]
      | none =>
        simp only [retryGo, horacle, if_neg hlt]
        omega

theorem runRetry_exhaust {α : Type} (oracle : Nat → Option α)
    (h : ∀ k, k < 5 → oracle k = none) :
    runRetry oracle =
      { result := none, delays := [1000, 2000, 4000, 8000], attemptsMade := 5 } := by
  have h0 := h 0 (by norm_num)
  have h1 := h 1 (by norm_num)
  have h2 := h 2 (by norm_num)
  have h3 := h 3 (by norm_num)
  have h4 := h 4 (by norm_num)
  simp [runRetry, retryGo, maxAttempts, baseDelay, h0, h1, h2, h3, h4]

theorem runRetry_success {α : Type} (oracle : Nat → Option α) (j : Nat) (v : α)
    (hj : j < 5) (hfail : ∀ i, i < j → oracle i = none) (hsucc : oracle j = some v) :
    runRetry oracle =
      { result := some v, delays := (List.range j).map (fun i => 1000 * 2 ^ i),
        attemptsMade := j + 1 } := by
  interval_cases j
  · simp [runRetry, retryGo, maxAttempts, baseDelay, hsucc]
  · have h0 := hfail 0 (by norm_num)
    simp [runRetry, retryGo, maxAttempts, baseDelay, h0, hsucc]
    decide
  · have h0 := hfail 0 (by norm_num)
    have h1 := hfail 1 (by norm_num)
    simp [runRetry, retryGo, maxAttempts, baseDelay, h0, h1, hsucc]
    decide
  · have h0 := hfail 0 (by norm_num)
    have h1 := hfail 1 (by norm_num)
    have h2 := hfail 2 (by norm_num)
    simp [runRetry, retryGo, maxAttempts, baseDelay, h0, h1, h2, hsucc]
    decide
  · have h0 := hfail 0 (by norm_num)
    have h1 := hfail 1 (by norm_num)
    have h2 := hfail 2 (by norm_num)
    have h3 := hfail 3 (by norm_num)
    simp [runRetry, retryGo, maxAttempts, baseDelay, h0, h1, h2, h3, hsucc]
    decide

/-! ## Claim theorems -/

/-- Claim C1: every suggestion operation's retry loop makes at most 5
attempts; after failing attempt k (k < 5) it waits 1000 * 2^(k-1) ms (1s, 2s,
4s, 8s after attempts 1-4, in order), no wait follows the 5th attempt, and the
first successful attempt ends the loop at once with that attempt's parsed
output.  All three operations (`fetchSubCategories`, `fetchSpecificSkills` and
the auto-categorization block of `handleAddSkill`) instantiate `runRetry`. -/
theorem claim1_retry_policy (α : Type) (oracle : Nat → Option α) :
    (runRetry oracle).attemptsMade ≤ 5 ∧
    (∀ j v, j < 5 → (∀ i, i < j → oracle i = none) → oracle j = some v →
      runRetry oracle =
        { result := some v, delays := (List.range j).map (fun i => 1000 * 2 ^ i),
          attemptsMade := j + 1 }) ∧
    ((∀ k, k < 5 → oracle k = none) →
      runRetry oracle =
        { result := none, delays := [1000, 2000, 4000, 8000], attemptsMade := 5 }) := by
  refine ⟨?_, ?_, ?_⟩
  · simpa [runRetry, maxAttempts] using retryGo_attemptsMade_le oracle maxAttempts 0
  · intro j v hj hfail hsucc
    exact runRetry_success oracle j v hj hfail hsucc
  · intro h
    exact runRetry_exhaust oracle h

/-- Witness for C1: failing twice then succeeding on the third attempt yields
that attempt's output after exactly the 1s and 2s waits; failing all five
attempts yields no output after exactly the 1s, 2s, 4s, 8s waits. -/
theorem claim1_retry_policy_witness :
    runRetry oracleThird =
      { result := some 7, delays := [1000, 2000], attemptsMade := 3 } ∧
    runRetry (fun _ => (none : Option Nat)) =
      { result := none, delays := [1000, 2000, 4000, 8000], attemptsMade := 5 } := by
  constructor
  · have h := (claim1_retry_policy Nat oracleThird).2.1 2 7 (by norm_num)
      (by intro i hi; interval_cases i <;> rfl) (by rfl)
    rw [h]
    decide
  · exact (claim1_retry_policy Nat (fun _ => none)).2.2 (fun k _ => rfl)

/-- Claim C2: the cleaned copy of the skill map written on save contains no
sub-category with an empty skill sequence and no broad category with an empty
sub-category mapping, and every non-empty skill sequence is carried over
unchanged. -/
theorem claim2_snapshot_pruned (m : SkillMap) :
    (∀ bc subs, (bc, subs) ∈ cleanedSkills m →
      subs ≠ [] ∧ ∀ sc sk, (sc, sk) ∈ subs → sk ≠ []) ∧
    (∀ bc subs sc sk, (bc, subs) ∈ m → (sc, sk) ∈ subs → sk ≠ [] →
      ∃ subs2, (bc, subs2) ∈ cleanedSkills m ∧ (sc, sk) ∈ subs2) := by
  constructor
  · intro bc subs hmem
    rcases List.mem_filter.mp hmem with ⟨hmap, hne⟩
    constructor
    · intro hnil
      rw [hnil] at hne
      simp at hne
    · intro sc sk hsk
      rcases List.mem_map.mp hmap with ⟨p, hp, heq⟩
      have hsubs : subs = p.2.filter (fun q => !q.2.isEmpty) := by
        have := congrArg Prod.snd heq
        simpa using this.symm
      rw [hsubs] at hsk
      rcases List.mem_filter.mp hsk with ⟨-, hq⟩
      simpa [List.isEmpty_iff] using hq
  · intro bc subs sc sk hbc hsc hne
    refine ⟨subs.filter (fun q => !q.2.isEmpty), ?_, ?_⟩
    · apply List.mem_filter.mpr
      constructor
      · exact List.mem_map.mpr ⟨(bc, subs), hbc, rfl⟩
      · have hmemf : (sc, sk) ∈ subs.filter (fun q => !q.2.isEmpty) :=
          List.mem_filter.mpr ⟨hsc, by simpa [List.isEmpty_iff] using hne⟩
        simpa [List.isEmpty_iff] using List.ne_nil_of_mem hmemf
    · exact List.mem_filter.mpr ⟨hsc, by simpa [List.isEmpty_iff] using hne⟩

/-- Witness for C2: in a map with empty containers next to a real entry, the
non-empty sequence survives cleaning under its broad category. -/
theorem claim2_snapshot_pruned_witness :
    ∃ subs2, (("A"), subs2) ∈ cleanedSkills mWithEmpties ∧
      (("B"), [("x")]) ∈ subs2 := by
  exact (claim2_snapshot_pruned mWithEmpties).2 ("A")
    [(("B"), [("x")]), (("C"), [])] ("B") [("x")]
    (by decide) (by decide) (by decide)

/-- Counterexample to C4 as stated: with every attempt failing, the
sub-category suggestion fetch leaves the suggestion list at its prior value
rather than setting it to an empty sequence (the loop only writes the state on
success; on exhaustion it merely clears the loading flag). -/
theorem claim4_counterexample :
    (fetchSubCategories ("Tech & Digital") failOracleText [("Prior")]).1 =
      [("Prior")] ∧
    (fetchSubCategories ("Tech & Digital") failOracleText [("Prior")]).1 ≠ [] := by
  constructor
  · decide
  · decide

/-- Claim C4 (amended): when all 5 attempts of `fetchSubCategories` or
`fetchSpecificSkills` fail, the corresponding suggestion list is left
unchanged at its prior value (it is not set to an empty sequence). -/
theorem claim4_amended_exhaust_keeps_prior (category broadCat subCat : String)
    (oracle oracle2 : Nat → Option String) (prior prior2 : List String)
    (hfail : ∀ k, k < 5 → oracle k = none)
    (hfail2 : ∀ k, k < 5 → oracle2 k = none)
    (hc1 : category ≠ "") (hc2 : category ≠ "Other")
    (hb1 : broadCat ≠ "") (hb2 : subCat ≠ "") (hb3 : broadCat ≠ "Other") :
    (fetchSubCategories category oracle prior).1 = prior ∧
    (fetchSpecificSkills broadCat subCat oracle2 prior2).1 = prior2 := by
  constructor
  · have h := runRetry_exhaust (fun k => (oracle k).map parseCSV)
      (fun k hk => by show Option.map parseCSV (oracle k) = none; rw [hfail k hk]; rfl)
    simp [fetchSubCategories, hc1, hc2, h]
  · have h := runRetry_exhaust (fun k => (oracle2 k).map parseCSV)
      (fun k hk => by show Option.map parseCSV (oracle2 k) = none; rw [hfail2 k hk]; rfl)
    simp [fetchSpecificSkills, hb1, hb2, hb3, h]

/-- Witness for the amended C4 at concrete inputs. -/
theorem claim4_amended_witness :
    (fetchSubCategories ("Creative & Design") failOracleText [("Stale")]).1 =
      [("Stale")] ∧
    (fetchSpecificSkills ("Creative & Design") ("Music Production")
        failOracleText [("Old")]).1 = [("Old")] := by
  exact claim4_amended_exhaust_keeps_prior ("Creative & Design")
    ("Creative & Design") ("Music Production") failOracleText failOracleText
    [("Stale")] [("Old")] (fun k _ => rfl) (fun k _ => rfl)
    (by decide) (by decide) (by decide) (by decide) (by decide)

/-- Counterexample to C5 as stated: when every auto-categorization attempt
fails, the pending add targets sub-category "General", not "Uncategorized"
(no pair with sub-category "Uncategorized" arises anywhere on the exhaustion
path; App.js lines 457-459 set `targetSubCategory = 'General'`). -/
theorem claim5_counterexample :
    resolveTriple inpTyped failOracleAuto =
      some (("Other_Auto_Uncategorized"), ("General"), ("Juggling")) ∧
    (("General") : String) ≠ ("Uncategorized") := by
  constructor
  · decide
  · decide

/-- Claim C5 (amended): when all 5 auto-categorization attempts fail, the
pending add targets the namespaced broad-category key
`Other_Auto_Uncategorized` with sub-category "General", the skill being the
trimmed typed input. -/
theorem claim5_amended_exhaust_fallback (inp : AddInput)
    (oracle : Nat → Option ParsedAuto)
    (hfail : ∀ k, k < 5 → oracle k = none)
    (hguard : autoGuard inp = true) :
    resolveTriple inp oracle =
      some (("Other_Auto_Uncategorized"), ("General"), jsTrim inp.newSkillInput) := by
  have hrun := runRetry_exhaust oracle hfail
  have hB : jsTrim inp.newSkillInput ≠ "" := by
    have h := hguard
    simp only [autoGuard, Bool.and_eq_true, Bool.not_eq_true',
      beq_eq_false_iff_ne] at h
    exact h.1.2
  have hskill : skillToAdd inp = jsTrim inp.newSkillInput := by
    simp [skillToAdd, hB]
  have hphase3 : phase3Target inp oracle = (("Other_Auto_Uncategorized"), ("General")) := by
    simp [phase3Target, hguard, hrun]
  simp [resolveTriple, addTarget, hphase3, hskill, hB,
    show (("Other_Auto_Uncategorized") : String) ≠ "" from by decide,
    show (("General") : String) ≠ "" from by decide]

/-- Witness for the amended C5 at a concrete typed input. -/
theorem claim5_amended_witness :
    resolveTriple inpTyped failOracleAuto =
      some (("Other_Auto_Uncategorized"), ("General"), jsTrim inpTyped.newSkillInput) := by
  exact claim5_amended_exhaust_fallback inpTyped failOracleAuto
    (fun k _ => rfl) (by decide)

/-- Reduction of the add handler once the target is resolved. -/
theorem handleAddSkill_target_some (st : AppState) (inp : AddInput)
    (oracle : Nat → Option ParsedAuto) (bc sc : String)
    (h : addTarget inp oracle = some (bc, sc)) :
    handleAddSkill st inp oracle =
      if skillToAdd inp ∈ ((getKey2 st.skills bc sc).getD []) then
        { st with selected := addSelected st.selected inp oracle }
      else
        { skills := setKey st.skills bc
            (setKey ((getKey st.skills bc).getD []) sc
              (((getKey2 st.skills bc sc).getD []) ++ [skillToAdd inp])),
          selected := addSelected st.selected inp oracle } := by
  simp [handleAddSkill, h]

/-- Reading back the addressed sequence after the nested write of the add. -/
theorem getKey2_setKey_setKey (m : SkillMap) (bc sc : String)
    (inner : SubCategoryMap) (v : SkillList) :
    getKey2 (setKey m bc (setKey inner sc v)) bc sc = some v := by
  unfold getKey2
  rw [getKey_setKey_self]
  exact getKey_setKey_self inner sc v

/-- Claim C3: adding a skill whose trimmed text already sits in the addressed
sub-category sequence is rejected with no mutation of the skill map, and two
identical add calls leave exactly one stored occurrence. -/
theorem claim3_addSkill_dedup (st : AppState) (inp : AddInput)
    (oracle : Nat → Option ParsedAuto) (bc sc sk : String)
    (h : resolveTriple inp oracle = some (bc, sc, sk)) :
    (sk ∈ ((getKey2 st.skills bc sc).getD []) →
      (handleAddSkill st inp oracle).skills = st.skills) ∧
    (handleAddSkill (handleAddSkill st inp oracle) inp oracle).skills =
      (handleAddSkill st inp oracle).skills ∧
    (countSkill st.skills bc sc sk = 0 →
      countSkill (handleAddSkill st inp oracle).skills bc sc sk = 1 ∧
      countSkill (handleAddSkill (handleAddSkill st inp oracle) inp oracle).skills
        bc sc sk = 1) := by
  obtain ⟨t, ht, heq⟩ := Option.map_eq_some'.mp h
  obtain ⟨bc0, sc0⟩ := t
  simp only [Prod.ext_iff] at heq
  have hbc := heq.1
  have hsc := heq.2.1
  have hsk := heq.2.2
  subst hbc
  subst hsc
  subst hsk
  have hchar := handleAddSkill_target_some st inp oracle bc0 sc0 ht
  by_cases hdup : skillToAdd inp ∈ ((getKey2 st.skills bc0 sc0).getD [])
  · have hst1 : (handleAddSkill st inp oracle).skills = st.skills := by
      rw [hchar, if_pos hdup]
    have hchar2 := handleAddSkill_target_some (handleAddSkill st inp oracle)
      inp oracle bc0 sc0 ht
    have hdup2 : skillToAdd inp ∈
        ((getKey2 (handleAddSkill st inp oracle).skills bc0 sc0).getD []) := by
      rw [hst1]; exact hdup
    refine ⟨fun _ => hst1, by rw [hchar2, if_pos hdup2], ?_⟩
    intro hc
    exact absurd hdup (by rwa [countSkill, List.count_eq_zero] at hc)
  · have hst1 : (handleAddSkill st inp oracle).skills =
        setKey st.skills bc0 (setKey ((getKey st.skills bc0).getD []) sc0
          (((getKey2 st.skills bc0 sc0).getD []) ++ [skillToAdd inp])) := by
      rw [hchar, if_neg hdup]
    have hD1 : getKey2 (handleAddSkill st inp oracle).skills bc0 sc0 =
        some (((getKey2 st.skills bc0 sc0).getD []) ++ [skillToAdd inp]) := by
      rw [hst1]
      exact getKey2_setKey_setKey st.skills bc0 sc0 ((getKey st.skills bc0).getD [])
        (((getKey2 st.skills bc0 sc0).getD []) ++ [skillToAdd inp])
    have hdup2 : skillToAdd inp ∈
        ((getKey2 (handleAddSkill st inp oracle).skills bc0 sc0).getD []) := by
      rw [hD1]
      simp
    have hchar2 := handleAddSkill_target_some (handleAddSkill st inp oracle)
      inp oracle bc0 sc0 ht
    have hst2 : (handleAddSkill (handleAddSkill st inp oracle) inp oracle).skills =
        (handleAddSkill st inp oracle).skills := by
      rw [hchar2, if_pos hdup2]
    refine ⟨fun hmem => absurd hmem hdup, hst2, ?_⟩
    intro hc
    have hc2 : (((getKey2 st.skills bc0 sc0).getD []).count (skillToAdd inp)) = 0 := hc
    have hcount1 : countSkill (handleAddSkill st inp oracle).skills bc0 sc0
        (skillToAdd inp) = 1 := by
      rw [countSkill, hD1]
      simp [List.count_append, hc2]
    exact ⟨hcount1, by rw [countSkill, hst2, ← countSkill]; exact hcount1⟩

/-- Witness for C3: adding "React" twice to an empty store stores it once. -/
theorem claim3_addSkill_dedup_witness :
    countSkill (handleAddSkill (handleAddSkill stEmpty inpSuggested failOracleAuto)
        inpSuggested failOracleAuto).skills
      ("Tech & Digital") ("Web Development") ("React") = 1 ∧
    (handleAddSkill (handleAddSkill stEmpty inpSuggested failOracleAuto)
        inpSuggested failOracleAuto).skills =
      (handleAddSkill stEmpty inpSuggested failOracleAuto).skills := by
  have h := claim3_addSkill_dedup stEmpty inpSuggested failOracleAuto
    ("Tech & Digital") ("Web Development") ("React") (by decide)
  exact ⟨(h.2.2 (by decide)).2, h.2.1⟩

/-- Counterexample to C6 as stated: removing "A" from the sequence
["A", "A", "B"] removes every exact match (the code filters with `!==`),
leaving ["B"], whereas removing only the first match would leave ["A", "B"]. -/
theorem claim6_counterexample :
    handleRemoveSkill stDupSeq ("Tech & Digital") ("Web") ("A") =
      some { skills := [(("Tech & Digital"), [(("Web"), [("B")])])], selected := [] } ∧
    ([("A"), ("A"), ("B")] : List String).erase ("A") = [("A"), ("B")] ∧
    ([("B")] : List String) ≠ [("A"), ("B")] := by
  refine ⟨by decide, by decide, by decide⟩

/-- Claim C6 (amended): `handleRemoveSkill` removes every exact match of the
skill from the addressed sequence (preserving the order of the rest) and then
applies the prune invariant: the addressed sub-category entry is dropped when
its sequence becomes empty, and the addressed broad-category entry is dropped
when its sub-category mapping becomes empty, so neither empty container
persists. -/
theorem claim6_amended_remove_prunes (st : AppState) (bc sc sk : String)
    (l : SkillList) (h : getKey2 st.skills bc sc = some l) :
    ∃ st2, handleRemoveSkill st bc sc sk = some st2 ∧
      getKey2 st2.skills bc sc =
        (if l.filter (fun s => s != sk) = [] then none
         else some (l.filter (fun s => s != sk))) ∧
      (∀ m, getKey st2.skills bc = some m → m ≠ []) := by
  have hbc : ∃ spread, getKey st.skills bc = some spread ∧ getKey spread sc = some l := by
    unfold getKey2 at h
    cases hg : getKey st.skills bc with
    | none => rw [hg] at h; simp at h
    | some spread => rw [hg] at h; exact ⟨spread, rfl, h⟩
  obtain ⟨spread, hspread, hsc⟩ := hbc
  have hspreadD : (getKey st.skills bc).getD [] = spread := by rw [hspread]; rfl
  by_cases hf : l.filter (fun s => s != sk) = []
  · by_cases hdel : delKey spread sc = []
    · refine ⟨{ skills := delKey st.skills bc,
                selected :=
                  if jsStartsWith bc ("Other_Custom_") || jsStartsWith bc ("Other_Auto_") then
                    st.selected.filter (fun c => c != bc && c != ("Other"))
                  else if bc ∈ broadCategories then
                    st.selected.filter (fun c => c != bc)
                  else st.selected }, ?_, ?_, ?_⟩
      · simp [handleRemoveSkill, hspread, hsc, hf, hdel]
      · rw [if_pos hf]
        unfold getKey2
        rw [getKey_delKey_self]
      · intro m hm
        rw [getKey_delKey_self] at hm
        simp at hm
    · refine ⟨{ st with skills := setKey st.skills bc (delKey spread sc) }, ?_, ?_, ?_⟩
      · simp [handleRemoveSkill, hspread, hsc, hf, hdel]
      · rw [if_pos hf]
        unfold getKey2
        rw [getKey_setKey_self]
        exact getKey_delKey_self spread sc
      · intro m hm
        rw [getKey_setKey_self] at hm
        intro hnil
        rw [hnil] at hm
        exact hdel (Option.some_inj.mp hm)
  · have hset : setKey spread sc (l.filter (fun s => s != sk)) ≠ [] :=
      setKey_ne_nil spread sc (l.filter (fun s => s != sk))
    refine ⟨{ st with
        skills := setKey st.skills bc (setKey spread sc (l.filter (fun s => s != sk))) },
      ?_, ?_, ?_⟩
    · simp [handleRemoveSkill, hspread, hsc, hf, hset]
    · rw [if_neg hf]
      unfold getKey2
      rw [getKey_setKey_self]
      exact getKey_setKey_self spread sc (l.filter (fun s => s != sk))
    · intro m hm
      rw [getKey_setKey_self] at hm
      intro hnil
      rw [hnil] at hm
      exact hset (Option.some_inj.mp hm)

/-- Witness for the amended C6: removing "A" from ["A", "B"] leaves ["B"]
under the addressed keys, and the broad category keeps a non-empty map. -/
theorem claim6_amended_witness :
    ∃ st2, handleRemoveSkill stWeb ("Tech & Digital") ("Web") ("A") = some st2 ∧
      getKey2 st2.skills ("Tech & Digital") ("Web") =
        (if ([("A"), ("B")] : List String).filter (fun s => s != ("A")) = [] then none
         else some (([("A"), ("B")] : List String).filter (fun s => s != ("A")))) ∧
      (∀ m, getKey st2.skills ("Tech & Digital") = some m → m ≠ []) := by
  exact claim6_amended_remove_prunes stWeb ("Tech & Digital") ("Web") ("A")
    [("A"), ("B")] (by decide)

/-- Counterexample to C7 as stated: removing the last skill of
"Other_Custom_B" while "Other_Custom_A" still has content nevertheless
deselects the synthetic "Other" marker (the code filters it out
unconditionally, App.js line 517), contradicting the claim's "unless another
namespaced key still has content". -/
theorem claim7_counterexample :
    handleRemoveSkill stTwoCustom ("Other_Custom_B") ("General") ("y") =
      some { skills := [(("Other_Custom_A"), [(("General"), [("x")])])],
             selected := [("Other_Custom_A")] } ∧
    ("Other") ∉ ([("Other_Custom_A")] : List String) ∧
    getKey2 [(("Other_Custom_A"), [(("General"), [("x")])])]
      ("Other_Custom_A") ("General") = some [("x")] := by
  refine ⟨by decide, by decide, by decide⟩

/-- Claim C7 (amended): when a remove empties its broad category, a
namespaced (`Other_Custom_`/`Other_Auto_`) key is dropped from the selection
together with the synthetic "Other" marker, unconditionally (even if another
namespaced key still has content); a standard key is dropped from the
selection. -/
theorem claim7_amended_deselect (st : AppState) (bc sc sk : String)
    (st2 : AppState) (h : handleRemoveSkill st bc sc sk = some st2)
    (hgone : getKey st2.skills bc = none) :
    ((jsStartsWith bc ("Other_Custom_") || jsStartsWith bc ("Other_Auto_")) = true →
      bc ∉ st2.selected ∧ ("Other") ∉ st2.selected) ∧
    ((jsStartsWith bc ("Other_Custom_") || jsStartsWith bc ("Other_Auto_")) = false →
      bc ∈ broadCategories → bc ∉ st2.selected) := by
  cases hsk : getKey ((getKey st.skills bc).getD []) sc with
  | none =>
    simp only [handleRemoveSkill, hsk] at h
    exact absurd h (by simp)
  | some skills =>
    simp only [handleRemoveSkill, hsk] at h
    split at h
    · split at h
      · have hst2 := (Option.some_inj.mp h).symm
        subst hst2
        constructor
        · intro hns
          simp only [hns, if_pos rfl]
          exact ⟨by simp [List.mem_filter], by simp [List.mem_filter]⟩
        · intro hns hstd
          simp only [hns, Bool.false_eq_true, if_false, if_pos hstd]
          simp [List.mem_filter]
      · have hst2 := (Option.some_inj.mp h).symm
        subst hst2
        rw [getKey_setKey_self] at hgone
        simp at hgone
    · split at h
      · have hst2 := (Option.some_inj.mp h).symm
        subst hst2
        constructor
        · intro hns
          simp only [hns, if_pos rfl]
          exact ⟨by simp [List.mem_filter], by simp [List.mem_filter]⟩
        · intro hns hstd
          simp only [hns, Bool.false_eq_true, if_false, if_pos hstd]
          simp [List.mem_filter]
      · have hst2 := (Option.some_inj.mp h).symm
        subst hst2
        rw [getKey_setKey_self] at hgone
        simp at hgone

/-- Witness for the amended C7: emptying the sole custom key removes both it
and "Other" from the selection. -/
theorem claim7_amended_witness :
    ("Other_Custom_A") ∉
      ({ skills := [], selected := [] } : AppState).selected ∧
    ("Other") ∉ ({ skills := [], selected := [] } : AppState).selected := by
  exact (claim7_amended_deselect stOneCustom ("Other_Custom_A") ("General") ("x")
    { skills := [], selected := [] } (by decide) (by decide)).1 (by decide)

/-- Claim C8: unchecking a broad category removes its own skills entry and
every namespaced (`Other_Custom_`/`Other_Auto_`) key containing the category
name as a `__`-qualifier. -/
theorem claim8_uncheck_cascade (st : AppState) (value : String) :
    getKey (handleBroadCategoryUncheck st value).skills value = none ∧
    (∀ k, (jsStartsWith k ("Other_Custom_") || jsStartsWith k ("Other_Auto_")) = true →
      jsIncludes k (("__") ++ value) = true →
      getKey (handleBroadCategoryUncheck st value).skills k = none) := by
  constructor
  · rw [getKey_eq_none_iff]
    intro p hp
    simp only [handleBroadCategoryUncheck] at hp
    rcases List.mem_filter.mp hp with ⟨hdel, -⟩
    rcases List.mem_filter.mp hdel with ⟨-, hne⟩
    simpa using hne
  · intro k hstart hinc
    rw [getKey_eq_none_iff]
    intro p hp
    simp only [handleBroadCategoryUncheck] at hp
    rcases List.mem_filter.mp hp with ⟨-, hmatch⟩
    intro hpk
    rw [hpk] at hmatch
    have hcm : cascadeMatch value k = true := by
      unfold cascadeMatch
      rcases (by simpa using hstart :
          jsStartsWith k ("Other_Custom_") = true ∨
            jsStartsWith k ("Other_Auto_") = true) with hcase | hcase
      · simp [hcase, hinc]
      · simp [hcase, hinc]
    rw [hcm] at hmatch
    simp at hmatch

/-- Witness for C8: the spec scenario — unchecking "Creative & Design"
removes both its entry and the custom key qualified by it. -/
theorem claim8_uncheck_cascade_witness :
    getKey (handleBroadCategoryUncheck stScenario8 ("Creative & Design")).skills
      ("Creative & Design") = none ∧
    getKey (handleBroadCategoryUncheck stScenario8 ("Creative & Design")).skills
      ("Other_Custom_Specialized Consulting__Creative & Design") = none := by
  refine ⟨(claim8_uncheck_cascade stScenario8 ("Creative & Design")).1, ?_⟩
  exact (claim8_uncheck_cascade stScenario8 ("Creative & Design")).2
    ("Other_Custom_Specialized Consulting__Creative & Design")
    (by decide) (by decide)

/-- Claim C9: when the typed skill input trims to empty (the skill comes only
from the suggested-skill selection), auto-categorization is never triggered —
the handler's outcome is independent of the suggestion oracle — and an
unresolved broad category rejects the add with no mutation at all. -/
theorem claim9_suggested_no_auto (st : AppState) (inp : AddInput)
    (oracle oracle2 : Nat → Option ParsedAuto)
    (h : jsTrim inp.newSkillInput = "") :
    handleAddSkill st inp oracle = handleAddSkill st inp oracle2 ∧
    (inp.activeBroadCategory = "" → handleAddSkill st inp oracle = st) := by
  have hguard : autoGuard inp = false := by
    simp [autoGuard, h]
  constructor
  · simp [handleAddSkill, addTarget, addSelected, phase3Target, hguard]
  · intro ha
    have hskill : skillToAdd inp = jsTrim inp.selectedSuggestedSkill := by
      simp [skillToAdd, h]
    by_cases hs : jsTrim inp.selectedSuggestedSkill = ""
    · have htar : addTarget inp oracle = none := by
        simp [addTarget, hskill, hs]
      have hsel : addSelected st.selected inp oracle = st.selected := by
        simp [addSelected, hskill, hs]
      simp [handleAddSkill, htar, hsel]
    · have hp2 : phase2Target inp = ("", inp.activeSubCategory) := by
        simp [phase2Target, ha]
      have htar : addTarget inp oracle = none := by
        simp [addTarget, hskill, hs, phase3Target, hguard, hp2]
      have hsel : addSelected st.selected inp oracle = st.selected := by
        simp [addSelected, hskill, hs, hguard, ha]
      simp [handleAddSkill, htar, hsel]

/-- Witness for C9: with only the suggested skill "React" and no active broad
category, two different oracles give the same outcome, and the state is
untouched. -/
theorem claim9_suggested_no_auto_witness :
    handleAddSkill stWeb inpSuggestedNoCat failOracleAuto =
      handleAddSkill stWeb inpSuggestedNoCat
        (fun _ => some { broadCategory := ("Tech & Digital"), subCategory := ("X") }) ∧
    handleAddSkill stWeb inpSuggestedNoCat failOracleAuto = stWeb := by
  have h := claim9_suggested_no_auto stWeb inpSuggestedNoCat failOracleAuto
    (fun _ => some { broadCategory := ("Tech & Digital"), subCategory := ("X") })
    (by decide)
  exact ⟨h.1, h.2 (by decide)⟩

/-- Claim C10: with the "Other" sentinel active and a non-empty custom
category name, the add always targets sub-category "General" under the
`Other_Custom_`-namespaced key — whatever the active sub-category — the
custom key is (made) selected, and the skill ends up stored under that
target. -/
theorem claim10_custom_other_general (st : AppState) (inp : AddInput)
    (oracle : Nat → Option ParsedAuto)
    (h1 : inp.activeBroadCategory = ("Other"))
    (h2 : jsTrim inp.newCustomBroadCategory ≠ "")
    (h3 : skillToAdd inp ≠ "") :
    resolveTriple inp oracle =
      some ((("Other_Custom_") ++ jsTrim inp.newCustomBroadCategory), ("General"),
        skillToAdd inp) ∧
    (("Other_Custom_") ++ jsTrim inp.newCustomBroadCategory) ∈
      (handleAddSkill st inp oracle).selected ∧
    skillToAdd inp ∈
      ((getKey2 (handleAddSkill st inp oracle).skills
        (("Other_Custom_") ++ jsTrim inp.newCustomBroadCategory)
        ("General")).getD []) := by
  have hdata : (("Other_Custom_") ++ jsTrim inp.newCustomBroadCategory).data =
      ("Other_Custom_" : String).data ++ (jsTrim inp.newCustomBroadCategory).data := by
    rfl
  have htb_ne : (("Other_Custom_") ++ jsTrim inp.newCustomBroadCategory) ≠ "" := by
    intro he
    have hd := congrArg String.data he
    rw [hdata] at hd
    rcases List.append_eq_nil.mp hd with ⟨hd1, -⟩
    exact absurd hd1 (by decide)
  have htb_ne2 : (("Other_Custom_") ++ jsTrim inp.newCustomBroadCategory) ≠ ("Other") := by
    intro he
    have hd := congrArg String.data he
    rw [hdata] at hd
    have hlen := congrArg List.length hd
    rw [List.length_append] at hlen
    have : (13 : Nat) + (jsTrim inp.newCustomBroadCategory).data.length = 5 := by
      simpa using hlen
    omega
  have hp2 : phase2Target inp = ((("Other_Custom_") ++ jsTrim inp.newCustomBroadCategory),
      ("General")) := by
    simp [phase2Target, h1, h2]
  have hguard : autoGuard inp = false := by
    simp [autoGuard, hp2, htb_ne, htb_ne2]
  have hp3 : phase3Target inp oracle = ((("Other_Custom_") ++
      jsTrim inp.newCustomBroadCategory), ("General")) := by
    simp [phase3Target, hguard, hp2]
  have htar : addTarget inp oracle = some ((("Other_Custom_") ++
      jsTrim inp.newCustomBroadCategory), ("General")) := by
    simp [addTarget, h3, hp3, htb_ne,
      show (("General") : String) ≠ "" from by decide]
  have hsel : addSelected st.selected inp oracle =
      addIfMissing st.selected (("Other_Custom_") ++ jsTrim inp.newCustomBroadCategory) := by
    simp [addSelected, h3, h1, h2, hguard, addIfMissing]
  have hchar := handleAddSkill_target_some st inp oracle
    (("Other_Custom_") ++ jsTrim inp.newCustomBroadCategory) ("General") htar
  refine ⟨by simp [resolveTriple, htar], ?_, ?_⟩
  · rw [hchar]
    by_cases hdup : skillToAdd inp ∈
        ((getKey2 st.skills (("Other_Custom_") ++ jsTrim inp.newCustomBroadCategory)
          ("General")).getD [])
    · rw [if_pos hdup]
      simpa [hsel] using mem_addIfMissing_self st.selected
        (("Other_Custom_") ++ jsTrim inp.newCustomBroadCategory)
    · rw [if_neg hdup]
      simpa [hsel] using mem_addIfMissing_self st.selected
        (("Other_Custom_") ++ jsTrim inp.newCustomBroadCategory)
  · rw [hchar]
    by_cases hdup : skillToAdd inp ∈
        ((getKey2 st.skills (("Other_Custom_") ++ jsTrim inp.newCustomBroadCategory)
          ("General")).getD [])
    · rw [if_pos hdup]
      exact hdup
    · rw [if_neg hdup]
      have hread := getKey2_setKey_setKey st.skills
        (("Other_Custom_") ++ jsTrim inp.newCustomBroadCategory) ("General")
        ((getKey st.skills (("Other_Custom_") ++ jsTrim inp.newCustomBroadCategory)).getD [])
        (((getKey2 st.skills (("Other_Custom_") ++ jsTrim inp.newCustomBroadCategory)
          ("General")).getD []) ++ [skillToAdd inp])
      show skillToAdd inp ∈ ((getKey2 (setKey st.skills
        (("Other_Custom_") ++ jsTrim inp.newCustomBroadCategory)
        (setKey ((getKey st.skills (("Other_Custom_") ++
          jsTrim inp.newCustomBroadCategory)).getD []) ("General")
          (((getKey2 st.skills (("Other_Custom_") ++ jsTrim inp.newCustomBroadCategory)
            ("General")).getD []) ++ [skillToAdd inp])))
        (("Other_Custom_") ++ jsTrim inp.newCustomBroadCategory) ("General")).getD [])
      rw [hread]
      simp

/-- Witness for C10: custom name "Specialized Consulting" files
"Brand Strategy" under `Other_Custom_Specialized Consulting` / "General" and
selects that key, whatever sub-category was active. -/
theorem claim10_custom_other_general_witness :
    resolveTriple inpCustom failOracleAuto =
      some ((("Other_Custom_") ++ jsTrim inpCustom.newCustomBroadCategory), ("General"),
        skillToAdd inpCustom) ∧
    (("Other_Custom_") ++ jsTrim inpCustom.newCustomBroadCategory) ∈
      (handleAddSkill stEmpty inpCustom failOracleAuto).selected ∧
    skillToAdd inpCustom ∈
      ((getKey2 (handleAddSkill stEmpty inpCustom failOracleAuto).skills
        (("Other_Custom_") ++ jsTrim inpCustom.newCustomBroadCategory)
        ("General")).getD []) := by
  exact claim10_custom_other_general stEmpty inpCustom failOracleAuto
    (by decide) (by decide) (by decide)
